import Mathlib

/-!
# Verification of pyPOCQuant claims

Shallow embedding of the parts of `pypocquant` (lib/analysis.py, lib/barcode.py,
lib/pipeline.py, lib/consts.py) needed to settle the frozen claims.

Conventions:
* Python floats are modelled as `ℚ`.  All comparisons that matter in the claims
  are decided by margins far larger than binary64 rounding, except where a
  doc comment says otherwise (the exact-tie analysis for `identify_bars_alt`).
* Image-processing primitives that live in third-party libraries
  (scipy `find_peaks`, `cdist`, OpenCV `warpAffine`, pyzbar `decode`) are taken
  as inputs/oracles; everything the repository itself computes is transcribed.
* Python `a // b` on the non-negative operands that occur here agrees with
  `Nat`/`Int` division as used below.
-/

namespace PyPOCQuant

/-! ## lib/consts.py : the `Issue` enumeration -/

/-- `Issue` enum from `lib/consts.py`. -/
inductive Issue where
  | NONE
  | BARCODE_EXTRACTION_FAILED
  | FID_EXTRACTION_FAILED
  | STRIP_BOX_EXTRACTION_FAILED
  | STRIP_EXTRACTION_FAILED
  | POOR_STRIP_ALIGNMENT
  | SENSOR_EXTRACTION_FAILED
  | BAND_QUANTIFICATION_FAILED
  | CONTROL_BAND_MISSING
deriving DecidableEq, Repr

/-- `Issue.value` from `lib/consts.py` (`NONE = 0` … `CONTROL_BAND_MISSING = 8`). -/
def Issue.value : Issue → ℕ
  | .NONE => 0
  | .BARCODE_EXTRACTION_FAILED => 1
  | .FID_EXTRACTION_FAILED => 2
  | .STRIP_BOX_EXTRACTION_FAILED => 3
  | .STRIP_EXTRACTION_FAILED => 4
  | .POOR_STRIP_ALIGNMENT => 5
  | .SENSOR_EXTRACTION_FAILED => 6
  | .BAND_QUANTIFICATION_FAILED => 7
  | .CONTROL_BAND_MISSING => 8

/-! ## lib/analysis.py : `invert_image`

`invert_image` computes `(2 ** bit_depth - image).astype('uint8')`.
NumPy promotes the `uint8` pixels to a wider signed integer type for the
subtraction (the scalar `256` does not fit in `uint8`), and `astype('uint8')`
then reduces modulo `256`. -/

/-- `invert_image` from `lib/analysis.py`, per pixel value `v` (0 ≤ v < 2^bit_depth). -/
def invert_image (bit_depth : ℕ) (v : ℕ) : ℕ :=
  (2 ^ bit_depth - v) % 256

/-! ## lib/analysis.py : overlap resolution in `analyze_measurement_window`

Lines 420–427: for every adjacent pair of accepted peaks, whenever the left
upper bound is `≥` the right lower bound, split at
`(current_upper_bound + next_lower_bound) // 2`, assigning the split to the
right peak's lower bound and `split - 1` to the left peak's upper bound.
The loop reads only not-yet-modified entries of the bound arrays, so it is
equivalent to the left-to-right recursion below (bounds are non-negative
pixel indices in every use, where Python `//` agrees with `Int` division). -/

/-- Helper for `resolveOverlaps`: `p` is the current (already updated)
left-most unresolved pair. -/
def resolveGo (p : ℤ × ℤ) : List (ℤ × ℤ) → List (ℤ × ℤ)
  | [] => [p]
  | q :: rest =>
    if q.1 ≤ p.2 then
      let split := (p.2 + q.1) / 2
      (p.1, split - 1) :: resolveGo (split, q.2) rest
    else
      p :: resolveGo q rest

/-- The overlap-resolution pass of `analyze_measurement_window`
(lib/analysis.py lines 420–427), on (lower, upper) bound pairs in
ascending peak order. -/
def resolveOverlaps : List (ℤ × ℤ) → List (ℤ × ℤ)
  | [] => []
  | p :: rest => resolveGo p rest

/-! ## lib/analysis.py : `identify_bars_alt`

The function computes relative peak positions, the matrix of absolute
distances to the expected relative positions, calls
`scipy.optimize.linear_sum_assignment`, and keeps the pairs whose distance is
within the tolerance (insertion order = ascending row = band order).

`linear_sum_assignment` (scipy ≥ 1.4, Crouse's shortest-augmenting-path
implementation in `rectangular_lsap.cpp`) returns a minimum-total-cost
maximum matching between rows (expected band positions) and columns
(observed peaks).  We model it by brute-force minimisation over all maximum
matchings, enumerated so that the first minimiser found is the
lexicographically smallest one (identity-biased); scipy's implementation
deliberately shares this identity bias on cost ties (its `remaining` array is
filled in reverse "so that the solution of a constant cost matrix is the
identity matrix", scipy issue 11602), and a step-by-step trace of the scipy
algorithm on the one tied instance appearing in the claims (peak positions
[60, 190, 195], below) yields the identity assignment as well; on that
instance every intermediate binary64 quantity is exactly representable, so
the trace is exact. -/

/-- Absolute value of a rational, written so that it evaluates by kernel
reduction; equal to `|x|` (`rabs_eq_abs`). -/
def rabs (x : ℚ) : ℚ := if x < 0 then -x else x

/-- `scipy.spatial.distance.cdist(xs, ys, metric='euclidean')` on 1-D points:
the matrix of absolute differences (for binary64 inputs,
`sqrt((x - y)^2) = |x - y|` exactly). -/
def cdist (xs ys : List ℚ) : List (List ℚ) :=
  xs.map fun x => ys.map fun y => rabs (x - y)

/-- Entry `(r, c)` of a distance matrix (0 outside the matrix). -/
def matrixEntry (m : List (List ℚ)) (rc : ℕ × ℕ) : ℚ :=
  (m.getD rc.1 []).getD rc.2 0

/-- Total cost of a matching over the distance matrix `m`. -/
def matchingCost (m : List (List ℚ)) (pairs : List (ℕ × ℕ)) : ℚ :=
  (pairs.map fun rc => matrixEntry m rc).sum

/-- All maximum matchings between the row list and the column list, rows kept
in ascending order; a row may be left out only while more rows than columns
remain. -/
def matchings : List ℕ → List ℕ → List (List (ℕ × ℕ))
  | [], _ => [[]]
  | r :: rs, cols =>
    (cols.flatMap fun c => (matchings rs (cols.erase c)).map fun m => (r, c) :: m) ++
    (if cols.length < rs.length + 1 then matchings rs cols else [])

/-- First minimum-cost matching in enumeration order (strict improvement
only, so on a cost tie the earlier, lexicographically smaller matching is
kept). -/
def argminMatching (m : List (List ℚ)) : List (List (ℕ × ℕ)) → List (ℕ × ℕ)
  | [] => []
  | c :: rest =>
    rest.foldl (fun best c2 => if matchingCost m c2 < matchingCost m best then c2 else best) c

/-- Model of `scipy.optimize.linear_sum_assignment` on a distance matrix
(see the section comment for the tie-breaking discussion). -/
def linear_sum_assignment (m : List (List ℚ)) : List (ℕ × ℕ) :=
  argminMatching m (matchings (List.range m.length) (List.range (m.headD []).length))

/-- `identify_bars_alt` from `lib/analysis.py` (lines 34–96).
`control_band_index` is accepted but never used by the Python body. -/
def identify_bars_alt (peak_positions : List ℚ) (profile_length : ℚ)
    (sensor_band_names : List String)
    (expected_relative_peak_positions : List ℚ)
    (control_band_index : ℤ) (tolerance : ℚ) : List (String × ℕ) :=
  let _ := control_band_index
  let rel : List ℚ := peak_positions.map fun p => p / profile_length
  let dists := cdist expected_relative_peak_positions rel
  let asg := linear_sum_assignment dists
  asg.filterMap fun rc =>
    if matrixEntry dists rc ≤ tolerance then some (sensor_band_names.getD rc.1 "", rc.2)
    else none

/-! ## lib/analysis.py : signal normalization in `analyze_measurement_window`

Lines 452–497: `merged_results` is a dict mapping band names to band records
(with fields `signal` and `normalized_signal`, the latter initialised to
`0.0`); it is modelled as an association list.  The control band name is
`sensor_band_names[control_band_index]` (Python indexing, negative indices
count from the end). -/

/-- One entry of the `merged_results` dictionary (the fields the claims
touch). -/
structure BandResult where
  signal : ℚ
  normalized_signal : ℚ
deriving DecidableEq, Repr

/-- `merged_results[name]["normalized_signal"] = v` on an association list
(updates every entry with that key; dict keys are unique in Python, and the
statements below are phrased via `lookup`, which sees the first one). -/
def setNormalized (merged : List (String × BandResult)) (name : String) (v : ℚ) :
    List (String × BandResult) :=
  merged.map fun p => if p.1 = name then (p.1, ⟨p.2.signal, v⟩) else p

/-- Python tuple indexing `names[i]` with negative-index support
(out-of-range, which raises in Python, is mapped to `""`; all uses below are
in range). -/
def pyStringIndex (names : List String) (i : ℤ) : String :=
  if 0 ≤ i then names.getD i.toNat "" else names.getD (names.length - i.natAbs) ""

/-- Body of the `for current_band_name in sensor_band_names` loop of
lib/analysis.py lines 492–497: skip the control band; for any other band
present, set its normalized signal to `signal / ctl_signal`. -/
def normalizeStep (control_band_name : String) (ctlSignal : ℚ)
    (m : List (String × BandResult)) (name : String) : List (String × BandResult) :=
  if name = control_band_name then m
  else
    match m.lookup name with
    | none => m
    | some b => setNormalized m name (b.signal / ctlSignal)

/-- The normalization block of `analyze_measurement_window`
(lib/analysis.py lines 486–497): if the control band is present, set its
normalized signal to `1.0` and, for every other band of `sensor_band_names`
present in the results, set the normalized signal to `signal / ctl_signal`;
otherwise leave everything untouched. -/
def normalizeAgainstControl (sensor_band_names : List String)
    (control_band_name : String) (merged : List (String × BandResult)) :
    List (String × BandResult) :=
  match merged.lookup control_band_name with
  | none => merged
  | some ctl =>
    sensor_band_names.foldl (normalizeStep control_band_name ctl.signal)
      (setNormalized merged control_band_name 1)

/-- The control-band bookkeeping of `run_pool` (lib/pipeline.py lines
988–1003): the result row's `issue` is set to `CONTROL_BAND_MISSING` exactly
when the control band is absent from the window results. -/
def recordControlBandIssue (window_results : List (String × BandResult))
    (control_band_name : String) (issue : ℕ) : ℕ :=
  if (window_results.lookup control_band_name).isSome then issue
  else Issue.CONTROL_BAND_MISSING.value

/-! ## lib/pipeline.py : stage gating in `run_pool`

Control-flow skeleton of `run_pool` (lib/pipeline.py lines 617–1031) at the
granularity of its image-processing stages.  The heavy per-stage image work
is summarised by its outcome (an oracle record); the branch structure — in
particular the early return with `STRIP_BOX_EXTRACTION_FAILED` when the best
completeness score is `< 3` (lines 633–642), before any of the later stages
runs — is transcribed from the source.  FID fall-back searches (which never
abort the pipeline) are not part of the stage list. -/

/-- The image-processing stages `run_pool` may invoke after fiducial
decoding. -/
inductive Stage where
  | orientationCorrection
  | boxExtraction
  | stripSegmentation
  | sensorExtraction
  | quantification
deriving DecidableEq, Repr

/-- Outcomes of the individual stages of `run_pool` (oracle record). -/
structure PoolOutcomes where
  bestScore : ℤ
  boxOk : Bool
  stripOk : Bool
  sensorOk : Bool
  controlFound : Bool
deriving DecidableEq, Repr

/-- Stage skeleton of `run_pool`: returns the final `issue` value of the
result row together with the list of stages invoked after fiducial
decoding. -/
def run_pool (o : PoolOutcomes) : ℕ × List Stage :=
  if o.bestScore < 3 then
    (Issue.STRIP_BOX_EXTRACTION_FAILED.value, [])
  else
    let stages := [Stage.orientationCorrection, Stage.boxExtraction]
    if !o.boxOk then (Issue.STRIP_BOX_EXTRACTION_FAILED.value, stages)
    else
      let stages := stages ++ [Stage.stripSegmentation]
      if !o.stripOk then (Issue.STRIP_EXTRACTION_FAILED.value, stages)
      else
        let stages := stages ++ [Stage.sensorExtraction]
        if !o.sensorOk then (Issue.SENSOR_EXTRACTION_FAILED.value, stages)
        else
          let stages := stages ++ [Stage.quantification]
          if o.controlFound then (Issue.NONE.value, stages)
          else (Issue.CONTROL_BAND_MISSING.value, stages)

/-! ## lib/analysis.py : `_find_lower_background`, `_find_upper_background`,
`find_peak_bounds`, and the accepted-peak processing of
`analyze_measurement_window`

The profile is the 1-D list of (float) median intensities; the candidate
peak indices and the peak threshold are produced by scipy
(`find_peaks`, `maximum_filter`) and are therefore inputs here.  Out-of-range
profile accesses (which would raise in Python, and never occur in the uses
below) read `0`. -/

/-- Loop of `_find_lower_background` (lib/analysis.py lines 121–131):
scan `index = peak-1, peak-2, …, lowestBound+1`, keeping the running
minimum and its index; a sample above the running minimum is skipped, but
after more than `maxSkip` skips the scan breaks. -/
def lowerLoop (profile : List ℚ) (lowestBound maxSkip : ℕ) :
    ℕ → ℕ → ℚ → ℕ → ℕ × ℚ
  | 0, clb, cbg, _ => (clb, cbg)
  | index + 1, clb, cbg, n =>
    if index + 1 ≤ lowestBound then (clb, cbg)
    else if profile.getD (index + 1) 0 ≤ cbg then
      lowerLoop profile lowestBound maxSkip index (index + 1) (profile.getD (index + 1) 0) n
    else if maxSkip < n then (clb, cbg)
    else lowerLoop profile lowestBound maxSkip index clb cbg (n + 1)

/-- `_find_lower_background` (lib/analysis.py lines 111–133): returns
`(current_lower_bound, current_lower_background)`; the returned `d_lower`
is `peak - current_lower_bound`. -/
def find_lower_background (profile : List ℚ) (peak lowestBound maxSkip : ℕ) : ℕ × ℚ :=
  lowerLoop profile lowestBound maxSkip (peak - 1) (peak - 1) (profile.getD peak 0) 0

/-- Loop of `_find_upper_background` (lib/analysis.py lines 147–157):
scan `index = peak+1, …, highestBound-1` upward; the fuel argument only
bounds the recursion and is set `≥ highestBound`, so the `highestBound ≤
index` test is what stops the scan. -/
def upperLoop (profile : List ℚ) (highestBound maxSkip : ℕ) :
    ℕ → ℕ → ℕ → ℚ → ℕ → ℕ × ℚ
  | 0, _, cub, cbg, _ => (cub, cbg)
  | fuel + 1, index, cub, cbg, n =>
    if highestBound ≤ index then (cub, cbg)
    else if profile.getD index 0 ≤ cbg then
      upperLoop profile highestBound maxSkip fuel (index + 1) index (profile.getD index 0) n
    else if maxSkip < n then (cub, cbg)
    else upperLoop profile highestBound maxSkip fuel (index + 1) cub cbg (n + 1)

/-- `_find_upper_background` (lib/analysis.py lines 136–159): returns
`(current_upper_bound, current_upper_background)`. -/
def find_upper_background (profile : List ℚ) (peak highestBound maxSkip : ℕ) : ℕ × ℚ :=
  upperLoop profile highestBound maxSkip highestBound (peak + 1) (peak + 1) (profile.getD peak 0) 0

/-- The lower-bound quality loop of `find_peak_bounds` (lib/analysis.py
lines 200–215): while the relative intensity of the lower background exceeds
`0.25` and `max_skip ≤ 5`, rerun the lower search with the next `max_skip`.
`cubbg` is the upper background from the initial search (the loop reads it
but never changes it).  Rational division by zero is `0` here, matching the
NaN/`> 0.25`-is-false behaviour of the float code when
`peak intensity = background`. -/
def lowerRetry (profile : List ℚ) (lowest peak : ℕ) (peakInt cubbg : ℚ) :
    ℕ → ℕ → ℕ × ℚ → ℚ → ℕ × ℚ
  | 0, _, st, _ => st
  | fuel + 1, k, st, il =>
    if 1 / 4 < il ∧ k ≤ 5 then
      let st2 := find_lower_background profile peak lowest k
      let bg := if st2.2 < cubbg then st2.2 else cubbg
      lowerRetry profile lowest peak peakInt cubbg fuel (k + 1) st2 ((st2.2 - bg) / (peakInt - bg))
    else st

/-- The upper-bound quality loop of `find_peak_bounds` (lib/analysis.py
lines 220–235).  `clbg` is the lower background *after* the lower quality
loop (the Python code recomputes `background` from it), while the initial
relative intensity `il` passed in was computed before that loop ran. -/
def upperRetry (profile : List ℚ) (highest peak : ℕ) (peakInt clbg : ℚ) :
    ℕ → ℕ → ℕ × ℚ → ℚ → ℕ × ℚ
  | 0, _, st, _ => st
  | fuel + 1, k, st, il =>
    if 1 / 4 < il ∧ k ≤ 5 then
      let st2 := find_upper_background profile peak highest k
      let bg := if clbg < st2.2 then clbg else st2.2
      upperRetry profile highest peak peakInt clbg fuel (k + 1) st2 ((st2.2 - bg) / (peakInt - bg))
    else st

/-- `find_peak_bounds` (lib/analysis.py lines 162–244): initial searches with
`max_skip = 1`, then the two quality loops (`max_skip = 2 … 5`; fuel 4 covers
the at most four passes each loop can make). -/
def find_peak_bounds (profile : List ℚ) (border peak : ℕ) : ℕ × ℕ :=
  let lowest := border
  let highest := profile.length - border
  let peakInt := profile.getD peak 0
  let l0 := find_lower_background profile peak lowest 1
  let u0 := find_upper_background profile peak highest 1
  let bg0 := if l0.2 < u0.2 then l0.2 else u0.2
  let il0 := (l0.2 - bg0) / (peakInt - bg0)
  let iu0 := (u0.2 - bg0) / (peakInt - bg0)
  let lf := lowerRetry profile lowest peak peakInt u0.2 4 2 l0 il0
  let uf := upperRetry profile highest peak peakInt lf.2 4 2 u0 iu0
  (lf.1, uf.1)

/-- The accepted-peak filter of `analyze_measurement_window`
(lib/analysis.py lines 404–408): candidates whose profile value is under the
peak threshold are dropped. -/
def acceptedPeaks (profile : List ℚ) (peak_threshold : ℚ) (peaks : List ℕ) : List ℕ :=
  peaks.filter fun p => decide (¬ profile.getD p 0 < peak_threshold)

/-- Bound computation and overlap resolution of `analyze_measurement_window`
(lib/analysis.py lines 401–427), given the candidate peaks found by scipy's
`find_peaks`: each accepted peak is paired with its resolved
`(lower, upper)` bounds. -/
def analyzeBounds (profile : List ℚ) (border : ℕ) (peak_threshold : ℚ)
    (peaks : List ℕ) : List (ℕ × (ℤ × ℤ)) :=
  let acc := acceptedPeaks profile peak_threshold peaks
  let bounds := resolveOverlaps (acc.map fun p =>
    (((find_peak_bounds profile border p).1 : ℤ), ((find_peak_bounds profile border p).2 : ℤ)))
  acc.zip bounds

/-- The property claimed for the final bounds of accepted peaks: each peak
position lies strictly between its resolved bounds, and the bounds lie in
the valid non-border index range. -/
def peakBoundsWellFormed (profile : List ℚ) (border : ℕ) (peak_threshold : ℚ)
    (peaks : List ℕ) : Prop :=
  ∀ pb ∈ analyzeBounds profile border peak_threshold peaks,
    (border : ℤ) ≤ pb.2.1 ∧ pb.2.1 < (pb.1 : ℤ) ∧ (pb.1 : ℤ) < pb.2.2 ∧
      pb.2.2 ≤ (profile.length : ℤ) - border - 1

instance (profile : List ℚ) (border : ℕ) (peak_threshold : ℚ) (peaks : List ℕ) :
    Decidable (peakBoundsWellFormed profile border peak_threshold peaks) := by
  unfold peakBoundsWellFormed
  infer_instance

/-! ## lib/barcode.py : `rotate`

`rotate(image, angle)` (lines 378–413) returns `image` itself when
`angle == 0`; otherwise it computes the rotated bounding-box extents
`bound_w = int(height*abs_sin + width*abs_cos)` and
`bound_h = int(height*abs_cos + width*abs_sin)` from
`cv2.getRotationMatrix2D` entries and resamples with `cv2.warpAffine`.
`abs_cos`/`abs_sin` are the binary64 values `|cos|`/`|sin|` of the angle,
supplied here as oracle functions (so they are non-negative); the resampling
itself is OpenCV code and is supplied as an oracle `warp`.  `int()` on the
non-negative extents is the floor. -/

/-- An image: extents plus pixel content. -/
structure Image where
  height : ℕ
  width : ℕ
  pix : ℕ → ℕ → ℚ

/-- `rotate` from `lib/barcode.py` (lines 378–413). -/
def rotate (cosAbs sinAbs : ℚ → ℚ) (warp : Image → ℚ → ℕ → ℕ → ℚ)
    (image : Image) (angle : ℚ) : Image :=
  if angle = 0 then image
  else
    let c := cosAbs angle
    let s := sinAbs angle
    let bound_w := ((image.height : ℚ) * s + (image.width : ℚ) * c).floor.toNat
    let bound_h := ((image.height : ℚ) * c + (image.width : ℚ) * s).floor.toNat
    ⟨bound_h, bound_w, warp image angle⟩

/-- The binary64 value of `cos(45°)` (= that of `sin(45°)`): the IEEE-754
double nearest to `√2/2`. -/
def cos45fl : ℚ := 6369051672525773 / 2 ^ 53

/-! ## lib/barcode.py : `try_extracting_fid_and_all_barcodes_with_linear_stretch_fh`

Lines 1075–1274.  The function walks `scaling × lower_bound_range ×
upper_bound_range`; for each combination it decodes the contrast-stretched
resized image and scores the decoded symbols.  Decoding (pyzbar) and the
regex payload parser are oracles:

* `decode rf lb ub` is the symbol list pyzbar returns for the image resized
  with factor `rf` and stretched with percentiles `(lb, ub)`.  The local
  `gray_resized` is only assigned when the current scaling factor differs
  from `1.0`, so the factor actually backing an attempt is the last non-1.0
  factor seen (`none` if there was none yet: reading it then raises
  `UnboundLocalError`).
* `parse data` is the three-regex cascade of lines 1187–1231 (`some` with
  the captured groups on the first match, `none` if all three fail).

If no attempt ran, `best_barcode_data` stays `None` and the epilogue
`for barcode in best_barcode_data` raises a `TypeError`. -/

/-- Barcode symbol types distinguished by the code. -/
inductive SymType where
  | QRCODE
  | CODE128
  | CODE39
  | OTHER
deriving DecidableEq, Repr

/-- A decoded symbol: its type and its UTF-8 payload. -/
structure Sym where
  type : SymType
  data : String
deriving DecidableEq, Repr

/-- Captured groups of a successful payload parse (the fallback regexes of
lines 1194–1215 set everything but `fid` to `""`). -/
structure PayloadMatch where
  fid : String
  manufacturer : String
  plate : String
  well : String
  user : String
deriving DecidableEq, Repr

/-- The mutable locals of the scoring loop (lines 1129–1139): `score` is
reset for every attempt, the patient-data fields and `fid_128` persist
across attempts. -/
structure DecState where
  score : ℕ
  fid : String
  manufacturer : String
  plate : String
  well : String
  user : String
  fid_128 : String
deriving DecidableEq, Repr

/-- Initial decode state (lines 1134–1139). -/
def initDecState : DecState :=
  ⟨0, "", "", "", "", "", ""⟩

/-- Whether an uppercased QR payload is one of the five corner-marker
labels. -/
def isCornerMarker (d : String) : Bool :=
  d = "BR" || d = "BL" || d = "TR" || d = "TL" || d = "TL_P"

/-- One iteration of `for barcode in barcode_data` (lib/barcode.py lines
1166–1239). -/
def processBarcode (parse : String → Option PayloadMatch) (st : DecState) (b : Sym) :
    DecState :=
  match b.type with
  | .QRCODE =>
    let d := b.data.toUpper
    if isCornerMarker d then { st with score := st.score + 1 }
    else if d = "L_G" || d = "R_G" then st
    else
      match parse b.data with
      | some p =>
        { st with
          score := st.score + 1, fid := p.fid, manufacturer := p.manufacturer,
          plate := p.plate, well := p.well, user := p.user }
      | none => st
  | .CODE128 =>
    if st.fid_128 = "" ∧ b.data ≠ "" then { st with fid_128 := b.data } else st
  | .CODE39 =>
    if st.fid_128 = "" ∧ b.data ≠ "" then { st with fid_128 := b.data } else st
  | .OTHER => st

/-- The completeness score of one decode attempt on symbol list `syms`
(`score` after the loop of lines 1156–1239, starting from 0). -/
def attemptScore (parse : String → Option PayloadMatch) (syms : List Sym) : ℕ :=
  (syms.foldl (processBarcode parse) initDecState).score

/-- Number of decoded QR symbols carrying a corner-marker label, counted
with multiplicity. -/
def qrMarkerCount (syms : List Sym) : ℕ :=
  (syms.filter fun b => decide (b.type = .QRCODE) && isCornerMarker b.data.toUpper).length

/-- Number of decoded QR symbols whose payload parses as patient data,
counted with multiplicity. -/
def qrPayloadCount (parse : String → Option PayloadMatch) (syms : List Sym) : ℕ :=
  (syms.filter fun b => decide (b.type = .QRCODE) && !isCornerMarker b.data.toUpper &&
    !(b.data.toUpper = "L_G" || b.data.toUpper = "R_G") && (parse b.data).isSome).length

/-- The completeness score as the specification describes it: the count of
the five *distinct* corner-marker labels found, plus 1 if a sample payload
was parsed, capped at 6. -/
def specCompletenessScore (parse : String → Option PayloadMatch) (syms : List Sym) : ℕ :=
  let qrData := (syms.filter fun b => decide (b.type = .QRCODE)).map fun b => b.data.toUpper
  let distinctMarkers :=
    (["BR", "BL", "TR", "TL", "TL_P"].filter fun m => decide (m ∈ qrData)).length
  let payload := if 0 < qrPayloadCount parse syms then 1 else 0
  min (distinctMarkers + payload) 6

/-- Python exceptions the function can raise. -/
inductive PyExc where
  | unboundLocalError
  | typeErrorNoneIteration
deriving DecidableEq, Repr

/-- The tuple the function returns (the `barcodes` list is kept as the raw
decoded symbols; the coordinate rescaling of the `Barcode` objects is not
modelled). -/
structure FHResult where
  syms : List Sym
  fid : String
  manufacturer : String
  plate : String
  well : String
  user : String
  lb : ℚ
  ub : ℚ
  score : ℤ
  scaling_factor : ℚ
  fid_128 : String
deriving DecidableEq, Repr

/-- The running best-attempt state (lines 1129–1133 and 1255–1262);
`hasData` is whether `best_barcode_data` has been assigned. -/
structure BestState where
  best_score : ℤ
  best_lb : ℚ
  best_ub : ℚ
  best_scaling_factor : ℚ
  hasData : Bool
  best_syms : List Sym
deriving DecidableEq, Repr

/-- Initial best-attempt state (lines 1129–1133). -/
def initBestState : BestState :=
  ⟨-1, 0, 100, 1, false, []⟩

/-- Reasons the nested loops stop early: a raised exception or the
`score == 6` early return. -/
inductive LoopExit where
  | exc : PyExc → LoopExit
  | early : FHResult → LoopExit
deriving DecidableEq, Repr

/-- One `(scaling_factor, lb, ub)` attempt (the body of the innermost loop,
lines 1152–1262): raises if `gray_resized` is unassigned, returns early on
`score == 6`, otherwise updates the best state on strict improvement. -/
def processAttempt (decode : ℚ → ℚ → ℚ → List Sym) (parse : String → Option PayloadMatch)
    (grayFactor : Option ℚ) (factor lb ub : ℚ) (st : DecState) (best : BestState) :
    Except LoopExit (DecState × BestState) :=
  match grayFactor with
  | none => .error (.exc .unboundLocalError)
  | some gf =>
    let syms := decode gf lb ub
    let st1 := syms.foldl (processBarcode parse) { st with score := 0 }
    if st1.score = 6 then
      .error (.early ⟨syms, st1.fid, st1.manufacturer, st1.plate, st1.well, st1.user,
        lb, ub, 6, factor, st1.fid_128⟩)
    else if best.best_score < (st1.score : ℤ) then
      .ok (st1, ⟨(st1.score : ℤ), lb, ub, factor, true, syms⟩)
    else
      .ok (st1, best)

/-- The `for ub in upper_bound_range` loop. -/
def loopUbs (decode : ℚ → ℚ → ℚ → List Sym) (parse : String → Option PayloadMatch)
    (grayFactor : Option ℚ) (factor lb : ℚ) :
    List ℚ → DecState × BestState → Except LoopExit (DecState × BestState)
  | [], acc => .ok acc
  | ub :: rest, acc =>
    match processAttempt decode parse grayFactor factor lb ub acc.1 acc.2 with
    | .error e => .error e
    | .ok acc2 => loopUbs decode parse grayFactor factor lb rest acc2

/-- The `for lb in lower_bound_range` loop. -/
def loopLbs (decode : ℚ → ℚ → ℚ → List Sym) (parse : String → Option PayloadMatch)
    (grayFactor : Option ℚ) (factor : ℚ) (ubs : List ℚ) :
    List ℚ → DecState × BestState → Except LoopExit (DecState × BestState)
  | [], acc => .ok acc
  | lb :: rest, acc =>
    match loopUbs decode parse grayFactor factor lb ubs acc with
    | .error e => .error e
    | .ok acc2 => loopLbs decode parse grayFactor factor ubs rest acc2

/-- The `for scaling_factor in scaling` loop, threading the `gray_resized`
state (assigned only when the factor differs from `1.0`). -/
def loopScalings (decode : ℚ → ℚ → ℚ → List Sym) (parse : String → Option PayloadMatch)
    (lbs ubs : List ℚ) :
    List ℚ → Option ℚ → DecState × BestState → Except LoopExit (DecState × BestState)
  | [], _, acc => .ok acc
  | factor :: rest, grayResized, acc =>
    match loopLbs decode parse (if factor ≠ 1 then some factor else grayResized) factor
        ubs lbs acc with
    | .error e => .error e
    | .ok acc2 =>
      loopScalings decode parse lbs ubs rest
        (if factor ≠ 1 then some factor else grayResized) acc2

/-- `try_extracting_fid_and_all_barcodes_with_linear_stretch_fh`
(lib/barcode.py lines 1075–1274). -/
def try_extracting_fid_and_all_barcodes_with_linear_stretch_fh
    (decode : ℚ → ℚ → ℚ → List Sym) (parse : String → Option PayloadMatch)
    (scaling lbs ubs : List ℚ) : Except PyExc FHResult :=
  match loopScalings decode parse lbs ubs scaling none (initDecState, initBestState) with
  | .error (.exc e) => .error e
  | .error (.early r) => .ok r
  | .ok (st, best) =>
    if best.hasData then
      .ok ⟨best.best_syms, st.fid, st.manufacturer, st.plate, st.well, st.user,
        best.best_lb, best.best_ub, best.best_score, best.best_scaling_factor, st.fid_128⟩
    else .error .typeErrorNoneIteration

/-- The sequence of `(gray_resized, scaling_factor)` states the outer loop
passes through. -/
def scanGray : List ℚ → Option ℚ → List (Option ℚ × ℚ)
  | [], _ => []
  | f :: rest, g =>
    (if f ≠ 1 then some f else g, f) :: scanGray rest (if f ≠ 1 then some f else g)

/-- The flattened attempt sequence of the nested loops, in iteration
order. -/
def attemptsList (scaling lbs ubs : List ℚ) : List (Option ℚ × ℚ × ℚ × ℚ) :=
  (scanGray scaling none).flatMap fun gf =>
    lbs.flatMap fun lb => ubs.map fun ub => (gf.1, gf.2, lb, ub)

/-- Reference walk over the flattened attempt list: stop with an exception
on an unassigned `gray_resized`, return the first attempt scoring exactly 6,
otherwise keep the first strictly-best attempt. -/
def flatGo (decode : ℚ → ℚ → ℚ → List Sym) (parse : String → Option PayloadMatch) :
    List (Option ℚ × ℚ × ℚ × ℚ) → DecState × BestState → Except LoopExit (DecState × BestState)
  | [], acc => .ok acc
  | a :: rest, acc =>
    match processAttempt decode parse a.1 a.2.1 a.2.2.1 a.2.2.2 acc.1 acc.2 with
    | .error e => .error e
    | .ok acc2 => flatGo decode parse rest acc2

/-- Reference form of the whole search: `flatGo` over `attemptsList`, with
the same epilogue as the source. -/
def flatSearch (decode : ℚ → ℚ → ℚ → List Sym) (parse : String → Option PayloadMatch)
    (scaling lbs ubs : List ℚ) : Except PyExc FHResult :=
  match flatGo decode parse (attemptsList scaling lbs ubs) (initDecState, initBestState) with
  | .error (.exc e) => .error e
  | .error (.early r) => .ok r
  | .ok (st, best) =>
    if best.hasData then
      .ok ⟨best.best_syms, st.fid, st.manufacturer, st.plate, st.well, st.user,
        best.best_lb, best.best_ub, best.best_score, best.best_scaling_factor, st.fid_128⟩
    else .error .typeErrorNoneIteration

/-- A 100×100 test image. -/
def img100 : Image :=
  ⟨100, 100, fun _ _ => 0⟩

/-! ## Theorems -/

theorem rabs_eq_abs (x : ℚ) : rabs x = |x| := by
  rw [rabs]
  split
  · rw [abs_of_neg]
    assumption
  · rw [abs_of_nonneg (le_of_not_lt (by assumption))]

/-- Claim C9: `invert_image` computes `2^bit_depth - pixel` reduced mod 256
(`256 - pixel` for the default 8-bit depth), so pixel value 0 maps to 0
(`256 mod 256`) rather than to full scale 255, while every other 8-bit value
`v` maps to `256 - v`; the inversion is not the involution `255 - v`. -/
theorem invert_image_spec :
    invert_image 8 0 = 0 ∧
    (∀ v : ℕ, 1 ≤ v → v ≤ 255 → invert_image 8 v = 256 - v) ∧
    invert_image 8 0 ≠ 255 - 0 := by
  refine ⟨rfl, ?_, by decide⟩
  intro v h1 h2
  unfold invert_image
  omega

/-- Witness for `invert_image_spec` at `v = 7`. -/
theorem invert_image_spec_witness : invert_image 8 7 = 256 - 7 :=
  invert_image_spec.2.1 7 (by decide) (by decide)

/-- Claim C2: when the best completeness score of fiducial decoding is below
3, `run_pool` records `STRIP_BOX_EXTRACTION_FAILED` and returns immediately:
no later stage (orientation correction, box extraction, strip segmentation,
sensor extraction, quantification) is invoked. -/
theorem run_pool_score_gating (o : PoolOutcomes) (h : o.bestScore < 3) :
    run_pool o = (Issue.STRIP_BOX_EXTRACTION_FAILED.value, []) := by
  unfold run_pool
  rw [if_pos h]

/-- Witness for `run_pool_score_gating` at a score of 2. -/
theorem run_pool_score_gating_witness :
    run_pool ⟨2, true, true, true, true⟩ = (Issue.STRIP_BOX_EXTRACTION_FAILED.value, []) :=
  run_pool_score_gating ⟨2, true, true, true, true⟩ (by decide)

theorem resolveGo_head_mem_fst (p : ℤ × ℤ) (rest : List (ℤ × ℤ)) :
    ∀ b ∈ (resolveGo p rest).head?, b.1 = p.1 := by
  cases rest with
  | nil => simp [resolveGo]
  | cons q rs =>
    rw [resolveGo]
    split <;> simp

theorem resolveGo_chain (rest : List (ℤ × ℤ)) :
    ∀ p, List.Chain' (fun a b : ℤ × ℤ => a.2 < b.1) (resolveGo p rest) := by
  induction rest with
  | nil =>
    intro p
    simp [resolveGo]
  | cons q rs ih =>
    intro p
    rw [resolveGo]
    split
    · rw [List.chain'_cons']
      refine ⟨?_, ih _⟩
      intro b hb
      have hfst := resolveGo_head_mem_fst ((p.2 + q.1) / 2, q.2) rs b hb
      simp only at hfst ⊢
      omega
    · rw [List.chain'_cons']
      refine ⟨?_, ih _⟩
      intro b hb
      have hfst := resolveGo_head_mem_fst q rs b hb
      simp only at hfst ⊢
      omega

/-- Claim C5: after the overlap-resolution pass of
`analyze_measurement_window`, every adjacent pair of accepted peaks has the
left peak's resolved upper bound strictly below the right peak's resolved
lower bound. -/
theorem resolveOverlaps_disjoint (ps : List (ℤ × ℤ)) :
    List.Chain' (fun a b : ℤ × ℤ => a.2 < b.1) (resolveOverlaps ps) := by
  cases ps with
  | nil => simp [resolveOverlaps]
  | cons p rest =>
    rw [resolveOverlaps]
    exact resolveGo_chain rest p

/-- Claim C3: `identify_bars_alt` assigns observed peaks to expected bands by
a global minimum-total-distance one-to-one assignment, independent of input
order: with bands (igg, igm, ctl), expected relative positions
(0.25, 0.5, 0.75), profile length 250 and tolerance 0.1, positions
[62, 125, 190] give (igg ↦ 0, igm ↦ 1, ctl ↦ 2) and the descending input
[190, 125, 62] gives (igg ↦ 2, igm ↦ 1, ctl ↦ 0); in both instances the
returned assignment is verified to have minimal total cost among all
candidate assignments (it is in fact the unique minimiser, so the result does
not depend on tie-breaking). -/
theorem identify_bars_alt_global_assignment :
    identify_bars_alt [62, 125, 190] 250 ["igg", "igm", "ctl"] [1/4, 1/2, 3/4] (-1) (1/10) =
      [("igg", 0), ("igm", 1), ("ctl", 2)] ∧
    identify_bars_alt [190, 125, 62] 250 ["igg", "igm", "ctl"] [1/4, 1/2, 3/4] (-1) (1/10) =
      [("igg", 2), ("igm", 1), ("ctl", 0)] ∧
    (∀ m ∈ matchings (List.range 3) (List.range 3),
      m ≠ [(0, 0), (1, 1), (2, 2)] →
      matchingCost (cdist [1/4, 1/2, 3/4] ([62, 125, 190].map fun p => p / 250))
          [(0, 0), (1, 1), (2, 2)] <
        matchingCost (cdist [1/4, 1/2, 3/4] ([62, 125, 190].map fun p => p / 250)) m) ∧
    (∀ m ∈ matchings (List.range 3) (List.range 3),
      m ≠ [(0, 2), (1, 1), (2, 0)] →
      matchingCost (cdist [1/4, 1/2, 3/4] ([190, 125, 62].map fun p => p / 250))
          [(0, 2), (1, 1), (2, 0)] <
        matchingCost (cdist [1/4, 1/2, 3/4] ([190, 125, 62].map fun p => p / 250)) m) :=
  of_decide_eq_true (by with_unfolding_all rfl)

/-- Claim C4 (code-bug evidence): on positions [60, 190, 195] the two
assignments (igm ↦ 1, ctl ↦ 2) and (igm ↦ 2, ctl ↦ 1) have exactly equal
total cost 3/10, and the assignment search resolves the tie towards the
identity, so `identify_bars_alt` returns (igg ↦ 0, ctl ↦ 2) — not the
(igg ↦ 0, ctl ↦ 1) asserted by the claim and by the repository's own test
(tests/test_analysis.py, Test 7).  On [60, 180, 190] the minimiser is unique
and the result (igg ↦ 0, ctl ↦ 2) agrees with the claim. -/
theorem identify_bars_alt_ctl_tie :
    identify_bars_alt [60, 190, 195] 250 ["igg", "igm", "ctl"] [1/4, 1/2, 3/4] (-1) (1/10) =
      [("igg", 0), ("ctl", 2)] ∧
    identify_bars_alt [60, 180, 190] 250 ["igg", "igm", "ctl"] [1/4, 1/2, 3/4] (-1) (1/10) =
      [("igg", 0), ("ctl", 2)] ∧
    matchingCost (cdist [1/4, 1/2, 3/4] ([60, 190, 195].map fun p => p / 250))
      [(0, 0), (1, 1), (2, 2)] = 3/10 ∧
    matchingCost (cdist [1/4, 1/2, 3/4] ([60, 190, 195].map fun p => p / 250))
      [(0, 0), (1, 2), (2, 1)] = 3/10 :=
  of_decide_eq_true (by with_unfolding_all rfl)

/-- Claim C8 counterexample: rotating a 100×100 image by 45° and rotating
the result by −45° yields a 199×199 image, not one with the original
extents (the bounding-box formula grows the extents;
`|cos 45°| = |sin 45°| = cos45fl` in binary64). -/
theorem rotate_roundtrip_extents_counterexample :
    (rotate (fun _ => cos45fl) (fun _ => cos45fl) (fun _ _ _ _ => 0)
        (rotate (fun _ => cos45fl) (fun _ => cos45fl) (fun _ _ _ _ => 0) img100 45)
        (-45)).height = 199 ∧
    (rotate (fun _ => cos45fl) (fun _ => cos45fl) (fun _ _ _ _ => 0)
        (rotate (fun _ => cos45fl) (fun _ => cos45fl) (fun _ _ _ _ => 0) img100 45)
        (-45)).width = 199 ∧
    img100.height = 100 ∧ img100.width = 100 ∧ (199 : ℕ) ≠ 100 :=
  of_decide_eq_true (by with_unfolding_all rfl)

/-- Claim C8 amended: `rotate(image, 0)` returns the image itself, for every
image (and any cosine/sine/resampling behaviour); the θ then −θ round trip
does not preserve extents in general (see the 45° counterexample). -/
theorem rotate_zero_identity (cosAbs sinAbs : ℚ → ℚ)
    (warp : Image → ℚ → ℕ → ℕ → ℚ) (image : Image) :
    rotate cosAbs sinAbs warp image 0 = image := by
  simp [rotate]

theorem lookup_cons_self (k : String) (b : BandResult) (rest : List (String × BandResult)) :
    ((k, b) :: rest).lookup k = some b := by
  simp [List.lookup]

theorem lookup_cons_ne (k x : String) (b : BandResult) (rest : List (String × BandResult))
    (h : x ≠ k) : ((k, b) :: rest).lookup x = rest.lookup x := by
  have hb : (x == k) = false := beq_eq_false_iff_ne.mpr h
  simp [List.lookup, hb]

theorem setNormalized_cons (k : String) (b : BandResult) (rest : List (String × BandResult))
    (name : String) (v : ℚ) :
    setNormalized ((k, b) :: rest) name v =
      (if k = name then (k, ⟨b.signal, v⟩) else (k, b)) :: setNormalized rest name v := rfl

theorem lookup_setNormalized_self (m : List (String × BandResult)) (name : String) (v : ℚ) :
    (setNormalized m name v).lookup name =
      (m.lookup name).map fun b => (⟨b.signal, v⟩ : BandResult) := by
  induction m with
  | nil => rfl
  | cons p rest ih =>
    obtain ⟨k, b⟩ := p
    rw [setNormalized_cons]
    by_cases h : k = name
    · subst h
      rw [if_pos rfl, lookup_cons_self, lookup_cons_self]
      rfl
    · rw [if_neg h, lookup_cons_ne k name b _ (fun he => h he.symm),
        lookup_cons_ne k name _ _ (fun he => h he.symm)]
      exact ih

theorem lookup_setNormalized_ne (m : List (String × BandResult)) (name : String) (v : ℚ)
    (x : String) (h : x ≠ name) :
    (setNormalized m name v).lookup x = m.lookup x := by
  induction m with
  | nil => rfl
  | cons p rest ih =>
    obtain ⟨k, b⟩ := p
    rw [setNormalized_cons]
    by_cases hk : k = name
    · rw [if_pos hk]
      have hx : x ≠ k := fun he => h (he.trans hk)
      rw [lookup_cons_ne k x _ _ hx, lookup_cons_ne k x b _ hx]
      exact ih
    · rw [if_neg hk]
      by_cases hx : x = k
      · subst hx
        rw [lookup_cons_self, lookup_cons_self]
      · rw [lookup_cons_ne k x b _ hx, lookup_cons_ne k x b _ hx]
        exact ih

theorem lookup_mem (m : List (String × BandResult)) (x : String) (b : BandResult)
    (h : m.lookup x = some b) : (x, b) ∈ m := by
  induction m with
  | nil => exact absurd h (by simp [List.lookup])
  | cons p rest ih =>
    obtain ⟨k, c⟩ := p
    by_cases hx : x = k
    · subst hx
      rw [lookup_cons_self] at h
      injection h with h2
      subst h2
      exact List.mem_cons_self _ _
    · rw [lookup_cons_ne k x c rest hx] at h
      exact List.mem_cons_of_mem _ (ih h)

theorem normalizeStep_lookup_ne (c : String) (s : ℚ) (m : List (String × BandResult))
    (name x : String) (h : x ≠ name) :
    (normalizeStep c s m name).lookup x = m.lookup x := by
  unfold normalizeStep
  split
  · rfl
  · cases hm : m.lookup name with
    | none => rfl
    | some b => exact lookup_setNormalized_ne m name (b.signal / s) x h

theorem foldNorm_lookup_ctl (c : String) (s : ℚ) (names : List String) :
    ∀ m : List (String × BandResult),
      (names.foldl (normalizeStep c s) m).lookup c = m.lookup c := by
  induction names with
  | nil => intro m; rfl
  | cons a as ih =>
    intro m
    rw [List.foldl_cons, ih]
    by_cases h : a = c
    · subst h
      unfold normalizeStep
      rw [if_pos rfl]
    · exact normalizeStep_lookup_ne c s m a c (Ne.symm h)

theorem foldNorm_lookup_not_mem (c : String) (s : ℚ) (x : String) (names : List String) :
    ∀ m : List (String × BandResult), x ∉ names →
      (names.foldl (normalizeStep c s) m).lookup x = m.lookup x := by
  induction names with
  | nil => intro m _; rfl
  | cons a as ih =>
    intro m hx
    rw [List.foldl_cons, ih _ (fun hmem => hx (List.mem_cons_of_mem a hmem))]
    exact normalizeStep_lookup_ne c s m a x (fun hxa => hx (hxa ▸ List.mem_cons_self a as))

theorem foldNorm_lookup_mem (c : String) (s : ℚ) (x : String) (hxc : x ≠ c)
    (names : List String) :
    ∀ (m : List (String × BandResult)) (b : BandResult), x ∈ names → m.lookup x = some b →
      (names.foldl (normalizeStep c s) m).lookup x = some ⟨b.signal, b.signal / s⟩ := by
  induction names with
  | nil =>
    intro m b h
    simp at h
  | cons a as ih =>
    intro m b hmem hlk
    rw [List.foldl_cons]
    by_cases hxa : x = a
    · subst hxa
      have hstep : (normalizeStep c s m x).lookup x = some ⟨b.signal, b.signal / s⟩ := by
        unfold normalizeStep
        rw [if_neg hxc, hlk, lookup_setNormalized_self, hlk]
        rfl
      by_cases hxas : x ∈ as
      · exact ih _ ⟨b.signal, b.signal / s⟩ hxas hstep
      · rw [foldNorm_lookup_not_mem c s x as _ hxas]
        exact hstep
    · have hpres : (normalizeStep c s m a).lookup x = some b := by
        rw [normalizeStep_lookup_ne c s m a x hxa]
        exact hlk
      have hmem2 : x ∈ as := by
        rcases List.mem_cons.mp hmem with h | h
        · exact absurd h hxa
        · exact h
      exact ih _ b hmem2 hpres

/-- Claim C1: in the normalization block of `analyze_measurement_window`,
whenever the designated control band (the `control_band_index` entry of
`sensor_band_names`, Python indexing) is present in the merged results, its
normalized signal is set to exactly 1 and every other present band's
normalized signal becomes `signal / ctl_signal`; when it is absent the
results are left untouched (every normalized signal stays at its default 0)
and `run_pool` records `CONTROL_BAND_MISSING` in the result row. -/
theorem analyze_measurement_window_normalization
    (sensor_band_names : List String) (control_band_index : ℤ)
    (control_band_name : String) (merged : List (String × BandResult)) (issue : ℕ)
    (hctl : control_band_name = pyStringIndex sensor_band_names control_band_index)
    (hkeys : ∀ p ∈ merged, p.1 ∈ sensor_band_names) :
    (∀ ctl, merged.lookup control_band_name = some ctl →
      (normalizeAgainstControl sensor_band_names control_band_name merged).lookup
          control_band_name = some ⟨ctl.signal, 1⟩ ∧
      ∀ name b, name ≠ control_band_name → merged.lookup name = some b →
        (normalizeAgainstControl sensor_band_names control_band_name merged).lookup name =
          some ⟨b.signal, b.signal / ctl.signal⟩) ∧
    (merged.lookup control_band_name = none →
      normalizeAgainstControl sensor_band_names control_band_name merged = merged ∧
      recordControlBandIssue merged control_band_name issue =
        Issue.CONTROL_BAND_MISSING.value) := by
  clear hctl
  constructor
  · intro ctl hc
    have heq : normalizeAgainstControl sensor_band_names control_band_name merged =
        sensor_band_names.foldl (normalizeStep control_band_name ctl.signal)
          (setNormalized merged control_band_name 1) := by
      unfold normalizeAgainstControl
      rw [hc]
    rw [heq]
    constructor
    · rw [foldNorm_lookup_ctl, lookup_setNormalized_self, hc]
      rfl
    · intro name b hne hlk
      have hmem : name ∈ sensor_band_names := hkeys (name, b) (lookup_mem merged name b hlk)
      have h1 : (setNormalized merged control_band_name 1).lookup name = some b := by
        rw [lookup_setNormalized_ne merged control_band_name 1 name hne]
        exact hlk
      exact foldNorm_lookup_mem control_band_name ctl.signal name hne sensor_band_names _ b hmem h1
  · intro hc
    constructor
    · unfold normalizeAgainstControl
      rw [hc]
    · unfold recordControlBandIssue
      rw [hc]
      rfl

/-- Witness for `analyze_measurement_window_normalization`: bands igm
(signal 3) and ctl (signal 4) present, control at Python index −1; igm's
normalized signal becomes 3/4. -/
theorem analyze_measurement_window_normalization_witness :
    (normalizeAgainstControl ["igm", "igg", "ctl"] "ctl"
        [("igm", ⟨3, 0⟩), ("ctl", ⟨4, 0⟩)]).lookup "igm" = some ⟨3, 3 / 4⟩ :=
  ((analyze_measurement_window_normalization ["igm", "igg", "ctl"] (-1) "ctl"
      [("igm", ⟨3, 0⟩), ("ctl", ⟨4, 0⟩)] 0 (by rfl) (by decide)).1 ⟨4, 0⟩ (by rfl)).2
    "igm" ⟨3, 0⟩ (by decide) (by rfl)

theorem lowerLoop_range (profile : List ℚ) (lb ms : ℕ) :
    ∀ (index clb : ℕ) (cbg : ℚ) (n : ℕ),
      (lowerLoop profile lb ms index clb cbg n).1 = clb ∨
        (lb < (lowerLoop profile lb ms index clb cbg n).1 ∧
          (lowerLoop profile lb ms index clb cbg n).1 ≤ index) := by
  intro index
  induction index with
  | zero =>
    intro clb cbg n
    left
    rfl
  | succ i ih =>
    intro clb cbg n
    rw [lowerLoop]
    split
    · left
      rfl
    · rename_i hgt
      split
      · rcases ih (i + 1) (profile.getD (i + 1) 0) n with h | ⟨ha, hb⟩
        · right
          rw [h]
          omega
        · right
          exact ⟨ha, by omega⟩
      · split
        · left
          rfl
        · rcases ih clb cbg (n + 1) with h | ⟨ha, hb⟩
          · left
            exact h
          · right
            exact ⟨ha, by omega⟩

theorem find_lower_background_range (profile : List ℚ) (peak lb ms : ℕ) (h : lb < peak) :
    lb ≤ (find_lower_background profile peak lb ms).1 ∧
      (find_lower_background profile peak lb ms).1 < peak := by
  unfold find_lower_background
  rcases lowerLoop_range profile lb ms (peak - 1) (peak - 1) (profile.getD peak 0) 0 with
    h1 | ⟨h1, h2⟩
  · rw [h1]
    omega
  · omega

theorem upperLoop_range (profile : List ℚ) (hb ms : ℕ) :
    ∀ (fuel index cub : ℕ) (cbg : ℚ) (n : ℕ),
      (upperLoop profile hb ms fuel index cub cbg n).1 = cub ∨
        (index ≤ (upperLoop profile hb ms fuel index cub cbg n).1 ∧
          (upperLoop profile hb ms fuel index cub cbg n).1 < hb) := by
  intro fuel
  induction fuel with
  | zero =>
    intro index cub cbg n
    left
    rfl
  | succ f ih =>
    intro index cub cbg n
    rw [upperLoop]
    split
    · left
      rfl
    · rename_i hlt
      split
      · rcases ih (index + 1) index (profile.getD index 0) n with h | ⟨ha, hb2⟩
        · right
          rw [h]
          omega
        · right
          exact ⟨by omega, hb2⟩
      · split
        · left
          rfl
        · rcases ih (index + 1) cub cbg (n + 1) with h | ⟨ha, hb2⟩
          · left
            exact h
          · right
            exact ⟨by omega, hb2⟩

theorem find_upper_background_range (profile : List ℚ) (peak hb ms : ℕ) (h : peak + 1 < hb) :
    peak < (find_upper_background profile peak hb ms).1 ∧
      (find_upper_background profile peak hb ms).1 ≤ hb - 1 := by
  unfold find_upper_background
  rcases upperLoop_range profile hb ms hb (peak + 1) (peak + 1) (profile.getD peak 0) 0 with
    h1 | ⟨h1, h2⟩
  · rw [h1]
    omega
  · omega

theorem lowerRetry_cases (profile : List ℚ) (lowest peak : ℕ) (peakInt cubbg : ℚ) :
    ∀ (fuel k : ℕ) (st : ℕ × ℚ) (il : ℚ),
      lowerRetry profile lowest peak peakInt cubbg fuel k st il = st ∨
        ∃ k2, lowerRetry profile lowest peak peakInt cubbg fuel k st il =
          find_lower_background profile peak lowest k2 := by
  intro fuel
  induction fuel with
  | zero =>
    intro k st il
    left
    rfl
  | succ f ih =>
    intro k st il
    rw [lowerRetry]
    split
    · rcases ih (k + 1) (find_lower_background profile peak lowest k) _ with h | ⟨k2, h⟩
      · right
        exact ⟨k, h⟩
      · right
        exact ⟨k2, h⟩
    · left
      rfl

theorem upperRetry_cases (profile : List ℚ) (highest peak : ℕ) (peakInt clbg : ℚ) :
    ∀ (fuel k : ℕ) (st : ℕ × ℚ) (il : ℚ),
      upperRetry profile highest peak peakInt clbg fuel k st il = st ∨
        ∃ k2, upperRetry profile highest peak peakInt clbg fuel k st il =
          find_upper_background profile peak highest k2 := by
  intro fuel
  induction fuel with
  | zero =>
    intro k st il
    left
    rfl
  | succ f ih =>
    intro k st il
    rw [upperRetry]
    split
    · rcases ih (k + 1) (find_upper_background profile peak highest k) _ with h | ⟨k2, h⟩
      · right
        exact ⟨k, h⟩
      · right
        exact ⟨k2, h⟩
    · left
      rfl

theorem lowerRetry_range (profile : List ℚ) (border peak : ℕ) (peakInt cubbg : ℚ)
    (h : border < peak) (fuel k : ℕ) (st : ℕ × ℚ) (il : ℚ)
    (hst : border ≤ st.1 ∧ st.1 < peak) :
    border ≤ (lowerRetry profile border peak peakInt cubbg fuel k st il).1 ∧
      (lowerRetry profile border peak peakInt cubbg fuel k st il).1 < peak := by
  rcases lowerRetry_cases profile border peak peakInt cubbg fuel k st il with hc | ⟨k2, hc⟩
  · rw [hc]
    exact hst
  · rw [hc]
    exact find_lower_background_range profile peak border k2 h

theorem upperRetry_range (profile : List ℚ) (highest peak : ℕ) (peakInt clbg : ℚ)
    (h : peak + 1 < highest) (fuel k : ℕ) (st : ℕ × ℚ) (il : ℚ)
    (hst : peak < st.1 ∧ st.1 ≤ highest - 1) :
    peak < (upperRetry profile highest peak peakInt clbg fuel k st il).1 ∧
      (upperRetry profile highest peak peakInt clbg fuel k st il).1 ≤ highest - 1 := by
  rcases upperRetry_cases profile highest peak peakInt clbg fuel k st il with hc | ⟨k2, hc⟩
  · rw [hc]
    exact hst
  · rw [hc]
    exact find_upper_background_range profile peak highest k2 h

/-- Claim C6, amended: the bounds produced by `find_peak_bounds` for an
accepted peak do satisfy `lowerBound < position < upperBound`, with both
bounds inside the profile's valid non-border index range; the subsequent
overlap-resolution pass can break the strict inequalities (see the
counterexample). -/
theorem find_peak_bounds_wellFormed (profile : List ℚ) (border peak : ℕ)
    (h1 : border < peak) (h2 : peak + 1 < profile.length - border) :
    border ≤ (find_peak_bounds profile border peak).1 ∧
    (find_peak_bounds profile border peak).1 < peak ∧
    peak < (find_peak_bounds profile border peak).2 ∧
    (find_peak_bounds profile border peak).2 ≤ profile.length - border - 1 := by
  unfold find_peak_bounds
  refine ⟨?_, ?_, ?_, ?_⟩
  · exact (lowerRetry_range profile border peak _ _ h1 4 2 _ _
      (find_lower_background_range profile peak border 1 h1)).1
  · exact (lowerRetry_range profile border peak _ _ h1 4 2 _ _
      (find_lower_background_range profile peak border 1 h1)).2
  · exact (upperRetry_range profile (profile.length - border) peak _ _ h2 4 2 _ _
      (find_upper_background_range profile peak (profile.length - border) 1 h2)).1
  · exact (upperRetry_range profile (profile.length - border) peak _ _ h2 4 2 _ _
      (find_upper_background_range profile peak (profile.length - border) 1 h2)).2

/-- Witness for `find_peak_bounds_wellFormed`: a single peak at 3 in a
length-7 profile with border 1 gets bounds (2, 5), and the well-formedness
bounds hold. -/
theorem find_peak_bounds_wellFormed_witness :
    1 ≤ (find_peak_bounds [0, 0, 1, 5, 1, 0, 0] 1 3).1 ∧
    (find_peak_bounds [0, 0, 1, 5, 1, 0, 0] 1 3).1 < 3 ∧
    3 < (find_peak_bounds [0, 0, 1, 5, 1, 0, 0] 1 3).2 ∧
    (find_peak_bounds [0, 0, 1, 5, 1, 0, 0] 1 3).2 ≤
      (List.length [(0 : ℚ), 0, 1, 5, 1, 0, 0]) - 1 - 1 :=
  find_peak_bounds_wellFormed [0, 0, 1, 5, 1, 0, 0] 1 3 (by decide) (by decide)

/-- Claim C6 counterexample: on the profile
`[0, 0, 1, 5, 4, 5, 1, 0, 0]` with border 1 and threshold 2, the accepted
peaks 3 and 5 each get bounds (2, 7) from `find_peak_bounds` (each bound
search walks across the neighbouring peak), and overlap resolution turns
them into (2, 3) and (4, 7): the left peak's resolved upper bound *equals*
its position 3, so `lowerBound < position < upperBound` fails after the
overlap-resolution pass. -/
theorem peakBounds_strictness_counterexample :
    analyzeBounds [0, 0, 1, 5, 4, 5, 1, 0, 0] 1 2 [3, 5] =
      [(3, (2, 3)), (5, (4, 7))] ∧
    ¬ peakBoundsWellFormed [0, 0, 1, 5, 4, 5, 1, 0, 0] 1 2 [3, 5] :=
  of_decide_eq_true (by with_unfolding_all rfl)

theorem qrMarkerCount_cons (b : Sym) (rest : List Sym) :
    qrMarkerCount (b :: rest) =
      (if decide (b.type = .QRCODE) && isCornerMarker b.data.toUpper then 1 else 0) +
        qrMarkerCount rest := by
  rw [qrMarkerCount, qrMarkerCount, List.filter_cons]
  split
  · simp
    omega
  · simp

theorem qrPayloadCount_cons (parse : String → Option PayloadMatch) (b : Sym) (rest : List Sym) :
    qrPayloadCount parse (b :: rest) =
      (if decide (b.type = .QRCODE) && !isCornerMarker b.data.toUpper &&
          !(b.data.toUpper = "L_G" || b.data.toUpper = "R_G") && (parse b.data).isSome
        then 1 else 0) + qrPayloadCount parse rest := by
  rw [qrPayloadCount, qrPayloadCount, List.filter_cons]
  split
  · simp
    omega
  · simp

theorem processBarcode_score (parse : String → Option PayloadMatch) (st : DecState) (b : Sym) :
    (processBarcode parse st b).score =
      st.score +
        (if decide (b.type = .QRCODE) && isCornerMarker b.data.toUpper then 1 else 0) +
        (if decide (b.type = .QRCODE) && !isCornerMarker b.data.toUpper &&
            !(b.data.toUpper = "L_G" || b.data.toUpper = "R_G") && (parse b.data).isSome
          then 1 else 0) := by
  obtain ⟨ty, d⟩ := b
  cases ty with
  | QRCODE =>
    cases hmk : isCornerMarker d.toUpper with
    | true => simp [processBarcode, hmk]
    | false =>
      cases hlg : decide (d.toUpper = "L_G" || d.toUpper = "R_G") with
      | true =>
        have hlg2 : (d.toUpper = "L_G" || d.toUpper = "R_G") = true := of_decide_eq_true hlg
        simp [processBarcode, hmk, hlg2]
      | false =>
        have hlg2 : ¬ (d.toUpper = "L_G" || d.toUpper = "R_G") = true := of_decide_eq_false hlg
        cases hp : parse d with
        | none => simp [processBarcode, hmk, hlg2, hp]
        | some pay => simp [processBarcode, hmk, hlg2, hp]
  | CODE128 =>
    by_cases hc : st.fid_128 = "" ∧ d ≠ ""
    · simp [processBarcode, hc]
    · simp [processBarcode, hc]
  | CODE39 =>
    by_cases hc : st.fid_128 = "" ∧ d ≠ ""
    · simp [processBarcode, hc]
    · simp [processBarcode, hc]
  | OTHER => simp [processBarcode]

theorem foldScore (parse : String → Option PayloadMatch) :
    ∀ (syms : List Sym) (st : DecState),
      (syms.foldl (processBarcode parse) st).score =
        st.score + qrMarkerCount syms + qrPayloadCount parse syms := by
  intro syms
  induction syms with
  | nil =>
    intro st
    simp [qrMarkerCount, qrPayloadCount]
  | cons b rest ih =>
    intro st
    rw [List.foldl_cons, ih, processBarcode_score, qrMarkerCount_cons, qrPayloadCount_cons]
    omega

theorem flatGo_append (decode : ℚ → ℚ → ℚ → List Sym) (parse : String → Option PayloadMatch) :
    ∀ (l1 l2 : List (Option ℚ × ℚ × ℚ × ℚ)) (acc : DecState × BestState),
      flatGo decode parse (l1 ++ l2) acc =
        match flatGo decode parse l1 acc with
        | .error e => .error e
        | .ok acc2 => flatGo decode parse l2 acc2 := by
  intro l1
  induction l1 with
  | nil =>
    intro l2 acc
    rfl
  | cons a rest ih =>
    intro l2 acc
    rw [List.cons_append, flatGo, flatGo]
    cases h : processAttempt decode parse a.1 a.2.1 a.2.2.1 a.2.2.2 acc.1 acc.2 with
    | error e => rfl
    | ok acc2 => exact ih l2 acc2

theorem loopUbs_eq (decode : ℚ → ℚ → ℚ → List Sym) (parse : String → Option PayloadMatch)
    (g : Option ℚ) (f lb : ℚ) :
    ∀ (ubs : List ℚ) (acc : DecState × BestState),
      loopUbs decode parse g f lb ubs acc =
        flatGo decode parse (ubs.map fun ub => (g, f, lb, ub)) acc := by
  intro ubs
  induction ubs with
  | nil =>
    intro acc
    rfl
  | cons ub rest ih =>
    intro acc
    rw [List.map_cons, loopUbs, flatGo]
    cases h : processAttempt decode parse g f lb ub acc.1 acc.2 with
    | error e => rfl
    | ok acc2 => exact ih acc2

theorem loopLbs_eq (decode : ℚ → ℚ → ℚ → List Sym) (parse : String → Option PayloadMatch)
    (g : Option ℚ) (f : ℚ) (ubs : List ℚ) :
    ∀ (lbs : List ℚ) (acc : DecState × BestState),
      loopLbs decode parse g f ubs lbs acc =
        flatGo decode parse (lbs.flatMap fun lb => ubs.map fun ub => (g, f, lb, ub)) acc := by
  intro lbs
  induction lbs with
  | nil =>
    intro acc
    rfl
  | cons lb rest ih =>
    intro acc
    rw [List.flatMap_cons, loopLbs, loopUbs_eq, flatGo_append]
    cases h : flatGo decode parse (ubs.map fun ub => (g, f, lb, ub)) acc with
    | error e => rfl
    | ok acc2 => exact ih acc2

theorem loopScalings_eq (decode : ℚ → ℚ → ℚ → List Sym) (parse : String → Option PayloadMatch)
    (lbs ubs : List ℚ) :
    ∀ (scaling : List ℚ) (g : Option ℚ) (acc : DecState × BestState),
      loopScalings decode parse lbs ubs scaling g acc =
        flatGo decode parse ((scanGray scaling g).flatMap fun gf =>
          lbs.flatMap fun lb => ubs.map fun ub => (gf.1, gf.2, lb, ub)) acc := by
  intro scaling
  induction scaling with
  | nil =>
    intro g acc
    rfl
  | cons f rest ih =>
    intro g acc
    rw [loopScalings, scanGray, List.flatMap_cons, flatGo_append, loopLbs_eq]
    cases h : flatGo decode parse
        (lbs.flatMap fun lb => ubs.map fun ub =>
          ((if f ≠ 1 then some f else g), f, lb, ub)) acc with
    | error e => rfl
    | ok acc2 => exact ih (if f ≠ 1 then some f else g) acc2

theorem search_eq_flat (decode : ℚ → ℚ → ℚ → List Sym) (parse : String → Option PayloadMatch)
    (scaling lbs ubs : List ℚ) :
    try_extracting_fid_and_all_barcodes_with_linear_stretch_fh decode parse scaling lbs ubs =
      flatSearch decode parse scaling lbs ubs := by
  unfold try_extracting_fid_and_all_barcodes_with_linear_stretch_fh flatSearch attemptsList
  rw [loopScalings_eq]

/-- Claim C7, amended: the completeness score of one decode attempt is the
number of decoded QR symbols carrying one of the five corner-marker labels,
counted *with multiplicity*, plus 1 for *every* QR symbol whose payload
parses as patient data — with no cap at 6; the search over
scaling × percentile combinations returns at the first attempt whose score
is exactly 6 and otherwise keeps the first strictly-best attempt, as stated
by its equality with the flattened reference walk `flatSearch`. -/
theorem attemptScore_and_search_spec :
    (∀ (parse : String → Option PayloadMatch) (syms : List Sym),
      attemptScore parse syms = qrMarkerCount syms + qrPayloadCount parse syms) ∧
    (∀ (decode : ℚ → ℚ → ℚ → List Sym) (parse : String → Option PayloadMatch)
      (scaling lbs ubs : List ℚ),
      try_extracting_fid_and_all_barcodes_with_linear_stretch_fh decode parse scaling lbs ubs =
        flatSearch decode parse scaling lbs ubs) := by
  constructor
  · intro parse syms
    rw [attemptScore, foldScore]
    simp [initDecState]
  · exact search_eq_flat

/-- Claim C7 counterexample: two decoded QR symbols both reading "TL" give
an attempt score of 2, while the claimed formula (count of distinct marker
labels, plus 1 for a parsed payload, capped at 6) gives 1. -/
theorem attemptScore_multiplicity_counterexample :
    attemptScore (fun _ => none) [⟨.QRCODE, "TL"⟩, ⟨.QRCODE, "TL"⟩] = 2 ∧
    specCompletenessScore (fun _ => none) [⟨.QRCODE, "TL"⟩, ⟨.QRCODE, "TL"⟩] = 1 ∧
    (2 : ℕ) ≠ 1 :=
  of_decide_eq_true (by with_unfolding_all rfl)

theorem loopLbs_none_errors (decode : ℚ → ℚ → ℚ → List Sym)
    (parse : String → Option PayloadMatch) (f : ℚ) (lbs ubs : List ℚ)
    (hlb : lbs ≠ []) (hub : ubs ≠ []) (acc : DecState × BestState) :
    loopLbs decode parse none f ubs lbs acc = .error (.exc .unboundLocalError) := by
  obtain ⟨lb, lbs2, rfl⟩ := List.exists_cons_of_ne_nil hlb
  obtain ⟨ub, ubs2, rfl⟩ := List.exists_cons_of_ne_nil hub
  rfl

theorem try_first_one_errors (decode : ℚ → ℚ → ℚ → List Sym)
    (parse : String → Option PayloadMatch) (rest lbs ubs : List ℚ)
    (hlb : lbs ≠ []) (hub : ubs ≠ []) :
    try_extracting_fid_and_all_barcodes_with_linear_stretch_fh decode parse (1 :: rest) lbs ubs =
      .error .unboundLocalError := by
  unfold try_extracting_fid_and_all_barcodes_with_linear_stretch_fh
  rw [loopScalings]
  have h1 : (if (1 : ℚ) ≠ 1 then some (1 : ℚ) else none) = none := by simp
  rw [h1, loopLbs_none_errors decode parse 1 lbs ubs hlb hub]

/-- Claim C10: if the first scaling factor equals 1.0 (as in the default
`scaling=(1.0,)`) and the percentile ranges are non-empty, the call raises
`UnboundLocalError`, because `gray_resized` is only assigned for factors
different from 1.0 but is read unconditionally inside the percentile loops;
and the call completes normally only when the scaling list starts with a
factor different from 1.0 (a factor ≠ 1.0 before any 1.0 entry). -/
theorem gray_resized_unbound_spec (decode : ℚ → ℚ → ℚ → List Sym)
    (parse : String → Option PayloadMatch) (scaling lbs ubs : List ℚ)
    (hlb : lbs ≠ []) (hub : ubs ≠ []) :
    (scaling.head? = some 1 →
      try_extracting_fid_and_all_barcodes_with_linear_stretch_fh decode parse scaling lbs ubs =
        .error .unboundLocalError) ∧
    (∀ r, try_extracting_fid_and_all_barcodes_with_linear_stretch_fh decode parse
        scaling lbs ubs = .ok r →
      ∃ f rest, scaling = f :: rest ∧ f ≠ 1) := by
  constructor
  · intro hh
    cases scaling with
    | nil => exact absurd hh (by simp)
    | cons f rest =>
      have hf : f = 1 := by
        simpa using hh
      subst hf
      exact try_first_one_errors decode parse rest lbs ubs hlb hub
  · intro r hr
    cases scaling with
    | nil =>
      rw [show try_extracting_fid_and_all_barcodes_with_linear_stretch_fh decode parse
          [] lbs ubs = .error .typeErrorNoneIteration from rfl] at hr
      exact absurd hr (by simp)
    | cons f rest =>
      by_cases hf : f = 1
      · subst hf
        rw [try_first_one_errors decode parse rest lbs ubs hlb hub] at hr
        exact absurd hr (by simp)
      · exact ⟨f, rest, rfl, hf⟩

/-- Witness for `gray_resized_unbound_spec`: with scaling `(1.0,)` and
singleton percentile ranges, the call raises `UnboundLocalError`. -/
theorem gray_resized_unbound_spec_witness :
    try_extracting_fid_and_all_barcodes_with_linear_stretch_fh
      (fun _ _ _ => []) (fun _ => none) [1] [0] [100] = .error .unboundLocalError :=
  (gray_resized_unbound_spec (fun _ _ _ => []) (fun _ => none) [1] [0] [100]
    (List.cons_ne_nil 0 []) (List.cons_ne_nil 100 [])).1 (by rfl)

end PyPOCQuant
